import Mathlib

/-!
Shallow embedding of the `uke_human_dns` ink! contract (`src/lib.rs`).

Name keys (`Hash`, 32-byte digests) and account identifiers (`AccountId`,
32-byte addresses) are opaque values compared bitwise; both are modelled
as naturals, with `0` playing the role of the all-zero `Default::default()`
account. The ink! `Mapping<Hash, AccountId>` storage cell is modelled
extensionally as a function `Hash → Option AccountId`. The ambient caller
(`self.env().caller()`) is threaded as an explicit argument, and each
mutating message returns its result value together with the post state and
the list of events it emitted (`self.env().emit_event`).
-/

namespace UkeDns

/-- Name keys (the contract's `Hash` type). -/
abbrev Hash := Nat

/-- Account identifiers (the contract's `AccountId` type); `0` models the
all-zero `Default::default()` account. -/
abbrev AccountId := Nat

/-- Errors that can occur upon calling this contract (`Error` in `src/lib.rs`). -/
inductive Error where
  /-- Returned if the name already exists upon registration. -/
  | UsernameAlreadyExists
  /-- Returned if caller is not owner while required to. -/
  | CallerIsNotOwner
deriving DecidableEq, Repr

/-- Events emitted by the contract: `Register { name, from }` and
`EditUsername { old_name, new_name, from }` in `src/lib.rs`. -/
inductive Event where
  | Register (name : Hash) (from_ : AccountId)
  | EditUsername (old_name : Hash) (new_name : Hash) (from_ : AccountId)
deriving DecidableEq, Repr

/-- The `Mapping<Hash, AccountId>` ink! storage type, modelled extensionally. -/
def Mapping := Hash → Option AccountId

/-- `Mapping::get`. -/
def Mapping.get (m : Mapping) (k : Hash) : Option AccountId := m k

/-- `Mapping::insert`. -/
def Mapping.insert (m : Mapping) (k : Hash) (v : AccountId) : Mapping :=
  fun j => if j = k then some v else m j

/-- `Mapping::remove`. -/
def Mapping.remove (m : Mapping) (k : Hash) : Mapping :=
  fun j => if j = k then none else m j

/-- `Mapping::contains`. -/
def Mapping.contains (m : Mapping) (k : Hash) : Bool := (m k).isSome

/-- Contract storage (`struct UkeHumanDns` in `src/lib.rs`): the username
mapping and the default address of the contract. -/
structure UkeHumanDns where
  username_to_id : Mapping
  default_address : AccountId

/-- Constructor `UkeHumanDns::new`: `initialize_contract` leaves the mapping
empty and sets `default_address = Default::default()`. -/
def UkeHumanDns.new : UkeHumanDns :=
  { username_to_id := fun _ => none, default_address := 0 }

/-- Private helper `get_address_or_default`: the stored owner of `name`, or
`default_address` when `name` is absent. -/
def UkeHumanDns.get_address_or_default (s : UkeHumanDns) (name : Hash) : AccountId :=
  (s.username_to_id.get name).getD s.default_address

/-- Message `get_address`: delegates to `get_address_or_default`. -/
def UkeHumanDns.get_address (s : UkeHumanDns) (name : Hash) : AccountId :=
  s.get_address_or_default name

/-- Message `register`: fail with `UsernameAlreadyExists` when `name` is
already mapped; otherwise insert `name → caller` and emit `Register`. -/
def UkeHumanDns.register (s : UkeHumanDns) (caller : AccountId) (name : Hash) :
    Except Error Unit × UkeHumanDns × List Event :=
  if s.username_to_id.contains name then
    (Except.error Error.UsernameAlreadyExists, s, [])
  else
    (Except.ok (),
     { s with username_to_id := s.username_to_id.insert name caller },
     [Event.Register name caller])

/-- Message `edit_username`: fail with `CallerIsNotOwner` when the resolved
owner of `old_name` differs from the caller; otherwise remove `old_name`,
insert `new_name → caller` and emit `EditUsername`. -/
def UkeHumanDns.edit_username (s : UkeHumanDns) (caller : AccountId)
    (old_name new_name : Hash) : Except Error Unit × UkeHumanDns × List Event :=
  if s.get_address_or_default old_name ≠ caller then
    (Except.error Error.CallerIsNotOwner, s, [])
  else
    (Except.ok (),
     { s with username_to_id := (s.username_to_id.remove old_name).insert new_name caller },
     [Event.EditUsername old_name new_name caller])

/-- One external call into the contract: the message, its ambient caller and
its arguments. -/
inductive Op where
  | register (caller : AccountId) (name : Hash)
  | edit (caller : AccountId) (old_name new_name : Hash)
  | resolve (caller : AccountId) (name : Hash)
deriving DecidableEq, Repr

/-- The caller the environment supplies for a call. -/
def Op.caller : Op → AccountId
  | .register c _ => c
  | .edit c _ _ => c
  | .resolve c _ => c

/-- Dispatch one call against the contract state. A `resolve` call runs
`get_address`, which takes `&self` in the source and therefore cannot touch
storage; its looked-up `AccountId` is returned to the caller out of band, so
only the (unchanged) state and the empty event list appear here. -/
def UkeHumanDns.step (s : UkeHumanDns) (op : Op) :
    Except Error Unit × UkeHumanDns × List Event :=
  match op with
  | .register c n => s.register c n
  | .edit c o n => s.edit_username c o n
  | .resolve _ _ => (Except.ok (), s, [])

/-- Run a serialized sequence of calls, as the hosting environment does. -/
def UkeHumanDns.run (s : UkeHumanDns) : List Op → UkeHumanDns
  | [] => s
  | op :: rest => ((s.step op).2.1).run rest

/-- `s.insertsKey op k` holds when call `op`, executed in state `s`, succeeds
and writes an owner under key `k`: a successful `register` writes under its
`name`, a successful `edit_username` writes under its `new_name`. -/
def UkeHumanDns.insertsKey (s : UkeHumanDns) (op : Op) (k : Hash) : Bool :=
  match op, (s.step op).1 with
  | .register _ n, .ok _ => k = n
  | .edit _ _ n, .ok _ => k = n
  | _, _ => false

/-- `s.neverInserts k ops`: along the execution of `ops` from `s`, no
successful call ever writes an owner under key `k`. -/
def UkeHumanDns.neverInserts (s : UkeHumanDns) (k : Hash) : List Op → Bool
  | [] => true
  | op :: rest => !(s.insertsKey op k) && ((s.step op).2.1.neverInserts k rest)

theorem Mapping.get_insert (m : Mapping) (k j : Hash) (v : AccountId) :
    (m.insert k v).get j = if j = k then some v else m.get j := rfl

theorem Mapping.get_remove (m : Mapping) (k j : Hash) :
    (m.remove k).get j = if j = k then none else m.get j := rfl

theorem UkeHumanDns.step_default_address (s : UkeHumanDns) (op : Op) :
    (s.step op).2.1.default_address = s.default_address := by
  cases op with
  | register c n =>
    by_cases h : s.username_to_id.contains n = true <;>
      simp [UkeHumanDns.step, UkeHumanDns.register, h]
  | edit c o n =>
    by_cases h : s.get_address_or_default o = c <;>
      simp [UkeHumanDns.step, UkeHumanDns.edit_username, h]
  | resolve c n => rfl

theorem UkeHumanDns.run_default_address (s : UkeHumanDns) (ops : List Op) :
    (s.run ops).default_address = s.default_address := by
  induction ops generalizing s with
  | nil => rfl
  | cons op rest ih =>
    have h1 : s.run (op :: rest) = ((s.step op).2.1).run rest := rfl
    rw [h1, ih, s.step_default_address op]

/-- C1: `register(name)` fails with `UsernameAlreadyExists` exactly when
`name` is already present in the mapping; on failure the state is untouched
and no event is emitted; otherwise it returns `Ok`, the state gains exactly
the entry `name → caller`, and one `Register (name, caller)` event is
emitted. The if-then-else makes the two outcomes exclusive and exhaustive. -/
theorem register_spec (s : UkeHumanDns) (c : AccountId) (n : Hash) :
    ((s.register c n).1 = Except.error Error.UsernameAlreadyExists ↔
      s.username_to_id.contains n = true) ∧
    (s.username_to_id.contains n = true →
      (s.register c n).2.1 = s ∧ (s.register c n).2.2 = []) ∧
    (s.username_to_id.contains n = false →
      (s.register c n).1 = Except.ok () ∧
      (s.register c n).2.1 = { s with username_to_id := s.username_to_id.insert n c } ∧
      (s.register c n).2.2 = [Event.Register n c]) := by
  by_cases h : s.username_to_id.contains n = true <;>
    simp [UkeHumanDns.register, h]

/-- Witness for C1: on a fresh registry, hash `5` is unregistered and caller
`1` registering it takes the success branch of `register_spec`. -/
theorem register_spec_witness :
    UkeHumanDns.new.username_to_id.contains 5 = false ∧
    ((UkeHumanDns.new.register 1 5).1 = Except.ok () ∧
      (UkeHumanDns.new.register 1 5).2.1 =
        { UkeHumanDns.new with
            username_to_id := UkeHumanDns.new.username_to_id.insert 5 1 } ∧
      (UkeHumanDns.new.register 1 5).2.2 = [Event.Register 5 1]) :=
  ⟨rfl, (register_spec UkeHumanDns.new 1 5).2.2 rfl⟩

/-- C2: `edit_username(old, new)` by caller `c` fails with `CallerIsNotOwner`
exactly when the resolved owner of `old` (default-owner semantics) differs
from `c`; on failure the whole state — hence every key of the mapping — is
unchanged and no event is emitted; when the check passes it returns `Ok`,
the new mapping is the old one with `old` removed and `new → c` inserted,
and one `EditUsername (old, new, c)` event is emitted. -/
theorem edit_username_spec (s : UkeHumanDns) (c : AccountId) (o n : Hash) :
    ((s.edit_username c o n).1 = Except.error Error.CallerIsNotOwner ↔
      s.get_address_or_default o ≠ c) ∧
    (s.get_address_or_default o ≠ c →
      (s.edit_username c o n).2.1 = s ∧ (s.edit_username c o n).2.2 = []) ∧
    (s.get_address_or_default o = c →
      (s.edit_username c o n).1 = Except.ok () ∧
      (s.edit_username c o n).2.1 =
        { s with username_to_id := (s.username_to_id.remove o).insert n c } ∧
      (s.edit_username c o n).2.2 = [Event.EditUsername o n c]) := by
  by_cases h : s.get_address_or_default o = c <;>
    simp [UkeHumanDns.edit_username, h]

/-- Witness for C2: caller `2` does not own hash `5` on a fresh registry
(it resolves to the default owner `0 ≠ 2`), so the failure branch of
`edit_username_spec` fires there. -/
theorem edit_username_spec_witness :
    UkeHumanDns.new.get_address_or_default 5 ≠ 2 ∧
    ((UkeHumanDns.new.edit_username 2 5 6).2.1 = UkeHumanDns.new ∧
      (UkeHumanDns.new.edit_username 2 5 6).2.2 = []) :=
  ⟨by decide, (edit_username_spec UkeHumanDns.new 2 5 6).2.1 (by decide)⟩

/-- C7: `get_address(name)` returns the stored owner when `name` is present
and `default_address` when it is absent, and it agrees with the private
`get_address_or_default`. It is a total function of the state in this
embedding because the source method takes `&self`: it cannot mutate the
mapping or `default_address` and has no failure path. -/
theorem get_address_spec (s : UkeHumanDns) (n : Hash) :
    (∀ a, s.username_to_id.get n = some a → s.get_address n = a) ∧
    (s.username_to_id.get n = none → s.get_address n = s.default_address) ∧
    s.get_address n = s.get_address_or_default n := by
  refine ⟨?_, ?_, rfl⟩
  · intro a h
    simp [UkeHumanDns.get_address, UkeHumanDns.get_address_or_default, h]
  · intro h
    simp [UkeHumanDns.get_address, UkeHumanDns.get_address_or_default, h]

/-- Witness for C7: after caller `1` registers hash `5`, `get_address 5`
returns `1`; on the fresh registry `get_address 5` returns the default. -/
theorem get_address_spec_witness :
    ((UkeHumanDns.new.register 1 5).2.1.username_to_id.get 5 = some 1 ∧
      (UkeHumanDns.new.register 1 5).2.1.get_address 5 = 1) ∧
    (UkeHumanDns.new.username_to_id.get 5 = none ∧
      UkeHumanDns.new.get_address 5 = UkeHumanDns.new.default_address) :=
  ⟨⟨rfl, (get_address_spec (UkeHumanDns.new.register 1 5).2.1 5).1 1 rfl⟩,
   ⟨rfl, (get_address_spec UkeHumanDns.new 5).2.1 rfl⟩⟩

/-- Counterexample to C3: on the state where caller `1` has registered hash
`5`, the degenerate rename `edit_username(5, 5)` by `1` succeeds, yet `5`
then resolves to `1`, not to `defaultOwner`: `resolve(old) = defaultOwner`
fails in the `old = new` case. -/
theorem edit_username_self_keeps_owner :
    ((UkeHumanDns.new.register 1 5).2.1.edit_username 1 5 5).1 = Except.ok () ∧
    ((UkeHumanDns.new.register 1 5).2.1.edit_username 1 5 5).2.1.get_address 5 ≠
      ((UkeHumanDns.new.register 1 5).2.1.edit_username 1 5 5).2.1.default_address :=
  ⟨rfl, by decide⟩

/-- C3 (amended): after a successful `edit_username(old, new)` by caller `c`,
`resolve(new) = c`; `resolve(old) = defaultOwner` holds whenever `old ≠ new`.
The degenerate case `old = new` still succeeds and still emits the
notification, but there `resolve(old) = resolve(new) = c`. -/
theorem edit_username_post_resolution (s : UkeHumanDns) (c : AccountId) (o n : Hash)
    (h : (s.edit_username c o n).1 = Except.ok ()) :
    (s.edit_username c o n).2.1.get_address n = c ∧
    (o ≠ n → (s.edit_username c o n).2.1.get_address o = s.default_address) ∧
    (o = n → (s.edit_username c o n).2.1.get_address o = c) ∧
    (s.edit_username c o n).2.2 = [Event.EditUsername o n c] := by
  have hc : s.get_address_or_default o = c := by
    by_cases hcc : s.get_address_or_default o = c
    · exact hcc
    · simp [UkeHumanDns.edit_username, hcc] at h
  have hstep : s.edit_username c o n =
      (Except.ok (),
       { s with username_to_id := (s.username_to_id.remove o).insert n c },
       [Event.EditUsername o n c]) := by
    simp [UkeHumanDns.edit_username, hc]
  refine ⟨?_, ?_, ?_, ?_⟩
  · rw [hstep]
    simp [UkeHumanDns.get_address, UkeHumanDns.get_address_or_default,
      Mapping.get, Mapping.insert]
  · intro hon
    rw [hstep]
    simp [UkeHumanDns.get_address, UkeHumanDns.get_address_or_default,
      Mapping.get, Mapping.insert, Mapping.remove, hon]
  · intro hon
    rw [hstep]
    simp [UkeHumanDns.get_address, UkeHumanDns.get_address_or_default,
      Mapping.get, Mapping.insert, hon]
  · rw [hstep]

/-- Witness for C3 (amended): caller `1` owns hash `5` and renames it to `6`;
the amended post-resolution facts hold on that concrete run. -/
theorem edit_username_post_resolution_witness :
    ((UkeHumanDns.new.register 1 5).2.1.edit_username 1 5 6).1 = Except.ok () ∧
    (((UkeHumanDns.new.register 1 5).2.1.edit_username 1 5 6).2.1.get_address 6 = 1 ∧
      (5 ≠ 6 →
        ((UkeHumanDns.new.register 1 5).2.1.edit_username 1 5 6).2.1.get_address 5 =
          (UkeHumanDns.new.register 1 5).2.1.default_address) ∧
      ((5 : Hash) = 6 →
        ((UkeHumanDns.new.register 1 5).2.1.edit_username 1 5 6).2.1.get_address 5 = 1) ∧
      ((UkeHumanDns.new.register 1 5).2.1.edit_username 1 5 6).2.2 =
        [Event.EditUsername 5 6 1]) :=
  ⟨rfl, edit_username_post_resolution (UkeHumanDns.new.register 1 5).2.1 1 5 6 rfl⟩

/-- Counterexample to C5: on a fresh registry, the sentinel caller
`c = defaultOwner = 0` invoking `edit_username(5, 5)` passes the ownership
check — the unregistered `5` resolves to `defaultOwner`, which equals the
caller — so the call returns `Ok`, not `CallerIsNotOwner`. -/
theorem edit_by_default_owner_succeeds :
    (UkeHumanDns.new.edit_username UkeHumanDns.new.default_address 5 5).1 = Except.ok () ∧
    (UkeHumanDns.new.edit_username UkeHumanDns.new.default_address 5 5).1 ≠
      Except.error Error.CallerIsNotOwner :=
  ⟨rfl, fun h => nomatch h⟩

/-- C5 (amended): a caller equal to `defaultOwner` invoking
`edit_username(old, new)` fails with `CallerIsNotOwner` exactly when `old`
resolves to an owner different from `defaultOwner`; in particular, when
`old` is unregistered the sentinel caller's call succeeds. -/
theorem edit_by_default_owner_iff (s : UkeHumanDns) (o n : Hash) :
    (s.edit_username s.default_address o n).1 = Except.error Error.CallerIsNotOwner ↔
      s.get_address_or_default o ≠ s.default_address := by
  by_cases h : s.get_address_or_default o = s.default_address <;>
    simp [UkeHumanDns.edit_username, h]

/-- Witness for C5 (amended): on the state where caller `1` registered hash
`5`, the resolved owner of `5` is `1 ≠ 0`, so `edit_username(5, 6)` by the
sentinel caller fails with `CallerIsNotOwner`. -/
theorem edit_by_default_owner_iff_witness :
    ((UkeHumanDns.new.register 1 5).2.1.edit_username
        (UkeHumanDns.new.register 1 5).2.1.default_address 5 6).1 =
      Except.error Error.CallerIsNotOwner :=
  (edit_by_default_owner_iff (UkeHumanDns.new.register 1 5).2.1 5 6).mpr (by decide)

/-- C6: `edit_username` performs no check on `new_name`: when `old` is
registered to the caller `c` and `new` is already registered to some owner
`d`, the call succeeds and silently overwrites the owner of `new` with `c`. -/
theorem edit_username_overwrites (s : UkeHumanDns) (c d : AccountId) (o n : Hash)
    (h1 : s.username_to_id.get o = some c) (_h2 : s.username_to_id.get n = some d) :
    (s.edit_username c o n).1 = Except.ok () ∧
    (s.edit_username c o n).2.1.username_to_id.get n = some c := by
  have hc : s.get_address_or_default o = c := by
    simp [UkeHumanDns.get_address_or_default, h1]
  constructor
  · simp [UkeHumanDns.edit_username, hc]
  · simp [UkeHumanDns.edit_username, hc, Mapping.get, Mapping.insert]

/-- Witness for C6: with `5 → 1` and `6 → 2` registered, owner `1` of `5`
renames `5` to `6`, which succeeds and overwrites the owner of `6` (was `2`)
with `1`. -/
theorem edit_username_overwrites_witness :
    ((UkeHumanDns.new.register 1 5).2.1.register 2 6).2.1.username_to_id.get 5 = some 1 ∧
    ((UkeHumanDns.new.register 1 5).2.1.register 2 6).2.1.username_to_id.get 6 = some 2 ∧
    ((((UkeHumanDns.new.register 1 5).2.1.register 2 6).2.1.edit_username 1 5 6).1 =
        Except.ok () ∧
      (((UkeHumanDns.new.register 1 5).2.1.register 2 6).2.1.edit_username
          1 5 6).2.1.username_to_id.get 6 = some 1) :=
  ⟨rfl, rfl,
   edit_username_overwrites ((UkeHumanDns.new.register 1 5).2.1.register 2 6).2.1
     1 2 5 6 rfl rfl⟩

/-- C9: a degenerate rename of `n` onto itself by its stored owner `c`
succeeds and is a state no-op: the remove of `n` followed by the insert of
`n → c` restores exactly the prior entry, every key of the mapping is
unchanged, and `n` still resolves to `c`. -/
theorem edit_username_self_noop (s : UkeHumanDns) (c : AccountId) (n : Hash)
    (h : s.username_to_id.get n = some c) :
    (s.edit_username c n n).1 = Except.ok () ∧
    (∀ k, (s.edit_username c n n).2.1.username_to_id.get k = s.username_to_id.get k) ∧
    (s.edit_username c n n).2.1.get_address n = c := by
  have h0 : s.username_to_id n = some c := h
  have hc : s.get_address_or_default n = c := by
    simp [UkeHumanDns.get_address_or_default, h]
  have hstep : s.edit_username c n n =
      (Except.ok (),
       { s with username_to_id := (s.username_to_id.remove n).insert n c },
       [Event.EditUsername n n c]) := by
    simp [UkeHumanDns.edit_username, hc]
  refine ⟨by rw [hstep], ?_, ?_⟩
  · intro k
    rw [hstep]
    by_cases hk : k = n <;>
      simp [Mapping.get, Mapping.insert, Mapping.remove, hk, h0]
  · rw [hstep]
    simp [UkeHumanDns.get_address, UkeHumanDns.get_address_or_default,
      Mapping.get, Mapping.insert]

/-- Witness for C9: caller `1` owns hash `5`; `edit_username(5, 5)` succeeds,
leaves every key unchanged, and `5` still resolves to `1`. -/
theorem edit_username_self_noop_witness :
    (UkeHumanDns.new.register 1 5).2.1.username_to_id.get 5 = some 1 ∧
    (((UkeHumanDns.new.register 1 5).2.1.edit_username 1 5 5).1 = Except.ok () ∧
      (∀ k, ((UkeHumanDns.new.register 1 5).2.1.edit_username 1 5 5).2.1.username_to_id.get k =
        (UkeHumanDns.new.register 1 5).2.1.username_to_id.get k) ∧
      ((UkeHumanDns.new.register 1 5).2.1.edit_username 1 5 5).2.1.get_address 5 = 1) :=
  ⟨rfl, edit_username_self_noop (UkeHumanDns.new.register 1 5).2.1 1 5 rfl⟩

/-- C10: frame property. For every key `k` other than the registered name,
`register` (whether it succeeds or fails) leaves `resolve(k)` unchanged; for
every key `k` outside `{old, new}`, `edit_username` (success or failure)
leaves `resolve(k)` unchanged; and no call — `register`, `edit_username` or
`resolve` — ever modifies `default_address`. -/
theorem frame_spec (s : UkeHumanDns) (c : AccountId) :
    (∀ n k, k ≠ n → (s.register c n).2.1.get_address k = s.get_address k) ∧
    (∀ o n k, k ≠ o → k ≠ n →
      (s.edit_username c o n).2.1.get_address k = s.get_address k) ∧
    (∀ op : Op, (s.step op).2.1.default_address = s.default_address) := by
  refine ⟨?_, ?_, s.step_default_address⟩
  · intro n k hk
    by_cases hco : s.username_to_id.contains n = true
    · simp [UkeHumanDns.register, hco]
    · simp [UkeHumanDns.register, hco, UkeHumanDns.get_address,
        UkeHumanDns.get_address_or_default, Mapping.get, Mapping.insert, hk]
  · intro o n k hko hkn
    by_cases hown : s.get_address_or_default o = c
    · have hstep : s.edit_username c o n =
          (Except.ok (),
           { s with username_to_id := (s.username_to_id.remove o).insert n c },
           [Event.EditUsername o n c]) := by
        simp [UkeHumanDns.edit_username, hown]
      rw [hstep]
      simp [UkeHumanDns.get_address, UkeHumanDns.get_address_or_default,
        Mapping.get, Mapping.insert, Mapping.remove, hko, hkn]
    · simp [UkeHumanDns.edit_username, hown]

/-- Witness for C10: caller `2` registering hash `6` leaves the resolution of
the distinct hash `5` (owned by `1`) unchanged. -/
theorem frame_spec_witness :
    ((UkeHumanDns.new.register 1 5).2.1.register 2 6).2.1.get_address 5 =
      (UkeHumanDns.new.register 1 5).2.1.get_address 5 :=
  (frame_spec (UkeHumanDns.new.register 1 5).2.1 2).1 6 5 (by decide)

theorem UkeHumanDns.step_get_none (s : UkeHumanDns) (op : Op) (k : Hash)
    (h0 : s.username_to_id.get k = none) (h : s.insertsKey op k = false) :
    (s.step op).2.1.username_to_id.get k = none := by
  cases op with
  | register c n =>
    by_cases hco : s.username_to_id.contains n = true
    · simpa [UkeHumanDns.step, UkeHumanDns.register, hco] using h0
    · have hk : ¬(k = n) := by
        simpa [UkeHumanDns.insertsKey, UkeHumanDns.step, UkeHumanDns.register, hco] using h
      simpa [UkeHumanDns.step, UkeHumanDns.register, hco, Mapping.get, Mapping.insert,
        hk] using h0
  | edit c o n =>
    have h0' : s.username_to_id k = none := h0
    by_cases hown : s.get_address_or_default o = c
    · have hk : ¬(k = n) := by
        simpa [UkeHumanDns.insertsKey, UkeHumanDns.step, UkeHumanDns.edit_username,
          hown] using h
      have hrw : (s.step (Op.edit c o n)).2.1 =
          { s with username_to_id := (s.username_to_id.remove o).insert n c } := by
        simp [UkeHumanDns.step, UkeHumanDns.edit_username, hown]
      rw [hrw]
      by_cases hko : k = o
      · subst hko
        simp [Mapping.get, Mapping.insert, Mapping.remove, hk]
      · simp [Mapping.get, Mapping.insert, Mapping.remove, hk, hko, h0']
    · simpa [UkeHumanDns.step, UkeHumanDns.edit_username, hown] using h0
  | resolve c n => exact h0

theorem UkeHumanDns.run_get_none (s : UkeHumanDns) (k : Hash) (ops : List Op)
    (h0 : s.username_to_id.get k = none) (h : s.neverInserts k ops = true) :
    (s.run ops).username_to_id.get k = none := by
  induction ops generalizing s with
  | nil => exact h0
  | cons op rest ih =>
    rw [UkeHumanDns.neverInserts, Bool.and_eq_true, Bool.not_eq_true'] at h
    exact ih ((s.step op).2.1) (s.step_get_none op k h0 h.1) h.2

/-- C8: the constructor yields an empty mapping with `default_address` equal
to the all-zero identifier, and any key under which no successful `register`
or `edit_username` in a call sequence ever writes still resolves to
`defaultOwner` after the sequence runs. -/
theorem new_default_resolution (k : Hash) (ops : List Op)
    (h : UkeHumanDns.new.neverInserts k ops = true) :
    UkeHumanDns.new.username_to_id.get k = none ∧
    UkeHumanDns.new.default_address = 0 ∧
    (UkeHumanDns.new.run ops).get_address k = UkeHumanDns.new.default_address := by
  refine ⟨rfl, rfl, ?_⟩
  have h1 := UkeHumanDns.run_get_none UkeHumanDns.new k ops rfl h
  have h2 := UkeHumanDns.run_default_address UkeHumanDns.new ops
  simp [UkeHumanDns.get_address, UkeHumanDns.get_address_or_default, Mapping.get] at h1 ⊢
  rw [h1, h2]
  rfl

/-- Witness for C8: hash `7` is never the written key of any successful call
in the sequence `register 1 5; edit 1 5 6; resolve 2 7`, so it still resolves
to the default owner afterwards. -/
theorem new_default_resolution_witness :
    UkeHumanDns.new.neverInserts 7 [Op.register 1 5, Op.edit 1 5 6, Op.resolve 2 7] = true ∧
    (UkeHumanDns.new.run [Op.register 1 5, Op.edit 1 5 6, Op.resolve 2 7]).get_address 7 =
      UkeHumanDns.new.default_address :=
  ⟨by decide,
   (new_default_resolution 7 [Op.register 1 5, Op.edit 1 5 6, Op.resolve 2 7]
     (by decide)).2.2⟩

theorem UkeHumanDns.step_no_default (s : UkeHumanDns) (op : Op)
    (hd : ∀ k, s.username_to_id.get k ≠ some s.default_address)
    (hc : op.caller ≠ s.default_address) :
    ∀ k, (s.step op).2.1.username_to_id.get k ≠ some s.default_address := by
  intro k
  cases op with
  | register c n =>
    have hcal : c ≠ s.default_address := hc
    by_cases hco : s.username_to_id.contains n = true
    · simpa [UkeHumanDns.step, UkeHumanDns.register, hco] using hd k
    · by_cases hk : k = n
      · subst hk
        simp [UkeHumanDns.step, UkeHumanDns.register, hco, Mapping.get, Mapping.insert]
        exact hcal
      · simpa [UkeHumanDns.step, UkeHumanDns.register, hco, Mapping.get, Mapping.insert,
          hk] using hd k
  | edit c o n =>
    have hcal : c ≠ s.default_address := hc
    by_cases hown : s.get_address_or_default o = c
    · have hrw : (s.step (Op.edit c o n)).2.1 =
          { s with username_to_id := (s.username_to_id.remove o).insert n c } := by
        simp [UkeHumanDns.step, UkeHumanDns.edit_username, hown]
      rw [hrw]
      by_cases hk : k = n
      · subst hk
        simp [Mapping.get, Mapping.insert]
        exact hcal
      · by_cases hko : k = o
        · subst hko
          simp [Mapping.get, Mapping.insert, Mapping.remove, hk]
        · simpa [Mapping.get, Mapping.insert, Mapping.remove, hk, hko] using hd k
    · simpa [UkeHumanDns.step, UkeHumanDns.edit_username, hown] using hd k
  | resolve c n => exact hd k

theorem UkeHumanDns.run_no_default (s : UkeHumanDns) (ops : List Op)
    (hd : ∀ k, s.username_to_id.get k ≠ some s.default_address)
    (hc : ∀ op ∈ ops, op.caller ≠ s.default_address) :
    ∀ k, (s.run ops).username_to_id.get k ≠ some s.default_address := by
  induction ops generalizing s with
  | nil => exact hd
  | cons op rest ih =>
    intro k
    have hdef := s.step_default_address op
    have hd2 : ∀ j, (s.step op).2.1.username_to_id.get j ≠
        some (s.step op).2.1.default_address := by
      intro j
      rw [hdef]
      exact s.step_no_default op hd (hc op (List.mem_cons_self _ _)) j
    have hc2 : ∀ op2 ∈ rest, op2.caller ≠ (s.step op).2.1.default_address := by
      intro op2 hm
      rw [hdef]
      exact hc op2 (List.mem_cons_of_mem _ hm)
    have hres := ih ((s.step op).2.1) hd2 hc2 k
    rw [hdef] at hres
    exact hres

/-- Counterexample to C4: the sequence consisting of the single call
`register(1)` made with caller `0 = defaultOwner` — which the code accepts,
there being no check against the sentinel — leaves the fresh registry with
`defaultOwner` stored as the owner of key `1`. -/
theorem register_by_default_owner_stores_sentinel :
    (UkeHumanDns.new.run [Op.register 0 1]).username_to_id.get 1 =
      some UkeHumanDns.new.default_address := rfl

/-- C4 (amended): provided every call in the sequence is made by a caller
different from the sentinel `defaultOwner` — the spec's own assumption that
no real caller identifier equals the sentinel — no sequence of `register`,
`edit_username` and `resolve` calls from the freshly constructed registry
ever stores `defaultOwner` as the owner of any key; `defaultOwner` is only
returned as an absence signal. The caller restriction is forced: the code
accepts the sentinel as a caller and then writes it (see the counterexample
theorem). -/
theorem no_default_owner_stored (ops : List Op)
    (hc : ∀ op ∈ ops, op.caller ≠ UkeHumanDns.new.default_address) (k : Hash) :
    (UkeHumanDns.new.run ops).username_to_id.get k ≠
      some UkeHumanDns.new.default_address :=
  UkeHumanDns.run_no_default UkeHumanDns.new ops
    (fun _ h => Option.noConfusion h) hc k

/-- Witness for C4 (amended): after the honest sequence
`register 1 5; edit 1 5 6`, key `6` is not mapped to the sentinel. -/
theorem no_default_owner_stored_witness :
    (∀ op ∈ [Op.register 1 5, Op.edit 1 5 6],
      op.caller ≠ UkeHumanDns.new.default_address) ∧
    (UkeHumanDns.new.run [Op.register 1 5, Op.edit 1 5 6]).username_to_id.get 6 ≠
      some UkeHumanDns.new.default_address := by
  have hcal : ∀ op ∈ [Op.register 1 5, Op.edit 1 5 6],
      op.caller ≠ UkeHumanDns.new.default_address := by
    intro op hop
    rcases List.mem_cons.mp hop with rfl | hop2
    · decide
    · rcases List.mem_singleton.mp hop2 with rfl
      decide
  exact ⟨hcal, no_default_owner_stored [Op.register 1 5, Op.edit 1 5 6] hcal 6⟩

end UkeDns
